import Mathlib

/-!
Verification development for the mongodb-profiler repository.

The three core stages are embedded shallowly:
* the Query Extractor (`extract-queries.js`, `extractQueriesFromContent`),
* the Plan Execution Engine (`run-profiler.js`, `parseRawQuery`, `getExplainResult`,
  and the per-descriptor loop of `main`),
* the Plan Normalizer and Classifier (`analyze-explains.js`, `summarizeExplain`,
  `analyzePerformance`) together with the success-counting of `generatePRReport`.

Host-language machinery (the JavaScript regex engine for the two full-text
scan patterns, `JSON.parse`, `eval`, and the MongoDB driver round-trip) is
represented by explicit parameters or by directly implemented scanners, as
documented on each definition.  JavaScript values are modelled by `JsVal`;
IEEE double arithmetic in the efficiency rule is idealized as exact rational
arithmetic (all constants involved in the claims are exactly representable).
-/

namespace MongoProfiler

/-! ## JavaScript value model -/

/-- Model of a JavaScript value as it appears in the data flow of the profiler:
`undefined`, `null`, booleans, (integer) numbers, strings, arrays and plain
objects (field lists in insertion order). -/
inductive JsVal : Type where
  | vUndefined : JsVal
  | vNull : JsVal
  | vBool : Bool → JsVal
  | vNum : Int → JsVal
  | vStr : String → JsVal
  | vArr : List JsVal → JsVal
  | vObj : List (String × JsVal) → JsVal
deriving Repr

/-- JavaScript truthiness (`if (v)`): `undefined`, `null`, `false`, `0` and
the empty string are falsy; arrays and objects are always truthy. -/
def jsTruthy : JsVal → Bool
  | .vUndefined => false
  | .vNull => false
  | .vBool b => b
  | .vNum n => n != 0
  | .vStr s => s != ""
  | .vArr _ => true
  | .vObj _ => true

/-- First binding of a key in the field list of a JavaScript object. -/
def lookupField : List (String × JsVal) → String → Option JsVal
  | [], _ => none
  | (k, v) :: rest, key => if k = key then some v else lookupField rest key

/-- JavaScript property access `v.key`: yields the bound value on objects and
`undefined` otherwise (matching `parsedQuery.find` etc. in `run-profiler.js`). -/
def getField (v : JsVal) (key : String) : JsVal :=
  match v with
  | .vObj fields => (lookupField fields key).getD .vUndefined
  | _ => .vUndefined

/-- JavaScript `a || b`. -/
def jsOr (a b : JsVal) : JsVal := if jsTruthy a then a else b

/-- JavaScript `typeof v === 'string'`. -/
def isStr : JsVal → Bool
  | .vStr _ => true
  | _ => false

/-- Decimal digits interpreted as a natural number. -/
def digitsToNat (ds : List Char) : Nat :=
  ds.foldl (fun acc c => acc * 10 + (c.toNat - 48)) 0

/-- Longest decimal-digit prefix, as `parseInt` reads it; `none` when the
prefix is empty (NaN). -/
def parseIntDigits (cs : List Char) : Option Int :=
  let ds := cs.takeWhile Char.isDigit
  if ds.isEmpty then none else some (Int.ofNat (digitsToNat ds))

/-- JavaScript `parseInt(String(v))` for the value shapes the profiler feeds
it (decimal strings and integer numbers); `none` stands for NaN.  Array and
object arguments are approximated as NaN — no claim depends on them. -/
def parseIntJs : JsVal → Option Int
  | .vNum n => some n
  | .vStr s =>
    let cs := s.data.dropWhile Char.isWhitespace
    match cs with
    | '-' :: rest => (parseIntDigits rest).map (fun n => -n)
    | '+' :: rest => parseIntDigits rest
    | _ => parseIntDigits cs
  | _ => none

/-- ASCII lower-casing, modelling `String.prototype.toLowerCase` on the
identifier-shaped strings the profiler lower-cases. -/
def strLower (s : String) : String := String.mk (s.data.map Char.toLower)

/-- JavaScript `String.prototype.trim`: remove whitespace from both ends
(implemented structurally so that concrete inputs evaluate). -/
def strTrim (s : String) : String :=
  String.mk (((s.data.dropWhile Char.isWhitespace).reverse.dropWhile Char.isWhitespace).reverse)

/-- Helper of `splitNewlines`: accumulate the current segment (reversed). -/
def splitNewlinesAux : List Char → List Char → List String
  | [], acc => [String.mk acc.reverse]
  | c :: rest, acc =>
    if c = '\n' then String.mk acc.reverse :: splitNewlinesAux rest []
    else splitNewlinesAux rest (c :: acc)

/-- JavaScript `content.split('\n')`. -/
def splitNewlines (s : String) : List String := splitNewlinesAux s.data []

/-- JavaScript `s.includes(sub)` / `/\.{3}/.test(s)`-style substring test. -/
def strContains (s sub : String) : Bool :=
  s.data.tails.any (fun t => sub.data.isPrefixOf t)

/-- JavaScript `o || d` on an optional string field (absent and `""` are
falsy). -/
def jsOrStr (o : Option String) (d : String) : String :=
  match o with
  | some s => if s != "" then s else d
  | none => d

/-- Truthiness of an optional string field (`if (!collection)`,
`r.error && ...`). -/
def truthyOptStr (o : Option String) : Bool :=
  match o with
  | some s => s != ""
  | none => false

/-! ## Query Extractor (`extract-queries.js`)

`extractQueriesFromContent` runs four steps over the text of a file: the
`mongoDriverRegex` full-text scan, the `chainedRegex` full-text scan, and a
line-by-line scan for Mongoose-style `Model.method(args)` calls (the declared
`collectionVarRegex` is never used by the source).  The two full-text regexes
are host regex-engine machinery; their capture tuples (`DriverMatch`,
`ChainedMatch`) are taken as input here.  The inner `matchAll` over a captured
chain and the per-line pattern are simple enough to implement directly. -/

/-- One match of `mongoDriverRegex`: captured groups 1 (`dbVar`),
2 (`collection`), 4 (final `method`) and 5 (raw argument text, untrimmed);
group 3 is captured by the source but never read. -/
structure DriverMatch where
  dbVar : String
  collection : String
  method : String
  rawArg : String
deriving Repr

/-- One match of `chainedRegex`: captured groups 1 (`dbVar`),
2 (`collection`) and 3 (the chained-methods text, e.g. `.find({a:1}).sort({b:1})`). -/
structure ChainedMatch where
  dbVar : String
  collection : String
  chainedMethods : String
deriving Repr

/-- One extracted query descriptor as pushed by `extractQueriesFromContent`
(the `file` field is attached later by `main` and not modelled). -/
structure Query where
  collection : String
  method : String
  rawQuery : String
  pattern : String
  dbVar : Option String
deriving Repr, DecidableEq

/-- JavaScript `\w` (ASCII word character). -/
def wordChar (c : Char) : Bool := c.isAlphanum || c = '_'

/-- Direct implementation of `chainedMethods.matchAll(/\.(\w+)\s*\(([^)]*)\)/g)`:
repeatedly find the leftmost match of `.`, a word, optional whitespace, and a
parenthesized run of non-`)` characters; continue after each match.  The
pattern is deterministic (each greedy class is followed by a disjoint
character), so a direct scanner is faithful.  `fuel` bounds the recursion and
is always called with more fuel than characters. -/
def chainCallsAux : Nat → List Char → List (String × String)
  | 0, _ => []
  | _, [] => []
  | fuel + 1, c :: rest =>
    if c = '.' then
      let meth := rest.takeWhile wordChar
      let r1 := rest.dropWhile wordChar
      if meth.isEmpty then chainCallsAux fuel rest
      else
        let r2 := r1.dropWhile Char.isWhitespace
        match r2 with
        | '(' :: r3 =>
          let args := r3.takeWhile (fun x => x ≠ ')')
          match r3.dropWhile (fun x => x ≠ ')') with
          | ')' :: r5 => (String.mk meth, String.mk args) :: chainCallsAux fuel r5
          | _ => chainCallsAux fuel rest
        | _ => chainCallsAux fuel rest
    else chainCallsAux fuel rest

/-- All `.method(args)` calls in a captured chain text, in order. -/
def chainCalls (cs : List Char) : List (String × String) :=
  chainCallsAux (cs.length + 1) cs

/-- Placeholder test of the direct-call rule:
`!rawQuery || rawQuery === '{}' || rawQuery === '[]' || /\.{3}/.test(rawQuery)`. -/
def isPlaceholderArg (rawQuery : String) : Bool :=
  rawQuery == "" || rawQuery == "\x7b\x7d" || rawQuery == "[]" || strContains rawQuery "..."

/-- Processing of one `mongoDriverRegex` match (lines 41-59 of
`extract-queries.js`): trim the captured argument, skip placeholders, and
push a `mongodb-driver` descriptor. -/
def processDriverMatch (m : DriverMatch) : Option Query :=
  if isPlaceholderArg (strTrim m.rawArg) then none
  else some ⟨m.collection, m.method, strTrim m.rawArg, "mongodb-driver", some m.dbVar⟩

/-- JavaScript object insert `queryParts[methodName] = methodArgs`: overwrite
in place when the key exists, else append (insertion order preserved). -/
def objInsert (ps : List (String × String)) (k v : String) : List (String × String) :=
  if ps.any (fun p => p.1 = k) then
    ps.map (fun p => if p.1 = k then (k, v) else p)
  else ps ++ [(k, v)]

/-- One step of building the `queryParts` object (lines 77-83 of
`extract-queries.js`): the trimmed argument is stored unless it is empty,
exactly `{}`, or contains `...` (note: `[]` is not excluded here). -/
def chainPartStep (acc : List (String × String)) (m : String × String) :
    List (String × String) :=
  if strTrim m.2 != "" && strTrim m.2 != "\x7b\x7d" && !(strContains (strTrim m.2) "...") then
    objInsert acc m.1 (strTrim m.2)
  else acc

/-- The `queryParts` object built from the chained calls. -/
def buildQueryParts (ms : List (String × String)) : List (String × String) :=
  ms.foldl chainPartStep []

/-- JSON string escaping as performed by `JSON.stringify` on the captured
argument texts (quote, backslash and common control characters; other
control characters do not occur in captured source text). -/
def jsonEscapeChar (c : Char) : List Char :=
  if c = '"' then ['\\', '"']
  else if c = '\\' then ['\\', '\\']
  else if c = '\n' then ['\\', 'n']
  else if c = '\r' then ['\\', 'r']
  else if c = '\t' then ['\\', 't']
  else [c]

/-- A JSON string literal for `s`. -/
def jsonQuote (s : String) : String :=
  String.mk ('"' :: s.data.foldr (fun c acc => jsonEscapeChar c ++ acc) ['"'])

/-- `JSON.stringify` of the flat string-valued `queryParts` object. -/
def jsonStringifyFlat (ps : List (String × String)) : String :=
  "\x7b" ++ String.intercalate "," (ps.map (fun p => jsonQuote p.1 ++ ":" ++ jsonQuote p.2)) ++ "\x7d"

/-- Processing of one `chainedRegex` match (lines 62-95 of
`extract-queries.js`): run the inner `matchAll`, take the first chained call
as the primary method, build `queryParts`, and push a `chained` descriptor
whose `rawQuery` is the JSON serialization of `queryParts` when it is
non-empty. -/
def processChainedMatch (m : ChainedMatch) : Option Query :=
  match chainCalls m.chainedMethods.data with
  | [] => none
  | (method, rawArg) :: restMs =>
    if (buildQueryParts ((method, rawArg) :: restMs)).length > 0 then
      some ⟨m.collection, method,
        jsonStringifyFlat (buildQueryParts ((method, rawArg) :: restMs)),
        "chained", some m.dbVar⟩
    else none

/-- Direct implementation of the anchored part of
`(?:await\s+)?(\w+)\.(\w+)\s*\(([^)]*)\)` at the start of `cs` (without the
optional `await` prefix). -/
def matchModelCore (cs : List Char) : Option (String × String × String) :=
  let name := cs.takeWhile wordChar
  let r1 := cs.dropWhile wordChar
  if name.isEmpty then none
  else
    match r1 with
    | '.' :: r2 =>
      let meth := r2.takeWhile wordChar
      let r3 := r2.dropWhile wordChar
      if meth.isEmpty then none
      else
        let r4 := r3.dropWhile Char.isWhitespace
        match r4 with
        | '(' :: r5 =>
          let args := r5.takeWhile (fun x => x ≠ ')')
          match r5.dropWhile (fun x => x ≠ ')') with
          | ')' :: _ => some (String.mk name, String.mk meth, String.mk args)
          | _ => none
        | _ => none
    | _ => none

/-- The same pattern with the optional greedy `await\s+` prefix tried first,
as the regex engine does at a fixed start position. -/
def matchModelAwait (cs : List Char) : Option (String × String × String) :=
  match cs with
  | 'a' :: 'w' :: 'a' :: 'i' :: 't' :: r =>
    if (r.takeWhile Char.isWhitespace).isEmpty then matchModelCore cs
    else
      match matchModelCore (r.dropWhile Char.isWhitespace) with
      | some m => some m
      | none => matchModelCore cs
  | _ => matchModelCore cs

/-- Leftmost match of the per-line pattern
`/(?:await\s+)?(\w+)\.(\w+)\s*\(([^)]*)\)/` (`line.match(...)`): try each
start position from the left. -/
def firstModelMatch : List Char → Option (String × String × String)
  | [] => none
  | c :: rest =>
    match matchModelAwait (c :: rest) with
    | some m => some m
    | none => firstModelMatch rest

/-- The fixed vocabulary of recognized MongoDB methods (lines 110-112 of
`extract-queries.js`). -/
def mongoMethods : List String :=
  ["find", "findOne", "findById", "aggregate", "updateOne", "updateMany",
   "deleteOne", "deleteMany", "insertOne", "insertMany", "countDocuments",
   "distinct", "replaceOne"]

/-- Processing of one line by the Mongoose rule (lines 98-123 of
`extract-queries.js`): trim the line, find the first `Name.method(args)`
match, and push a `mongoose-model` descriptor when the method is in the
vocabulary and the trimmed argument is truthy, not exactly `{}`, and free of
`...` (note: `[]` is not excluded here).  The model name, lower-cased, is
assumed to be the collection name. -/
def processMongooseLine (rawLine : String) : Option Query :=
  match firstModelMatch (strTrim rawLine).data with
  | none => none
  | some (modelName, method, argsRaw) =>
    if mongoMethods.contains method && strTrim argsRaw != "" && strTrim argsRaw != "\x7b\x7d"
        && !(strContains (strTrim argsRaw) "...") then
      some ⟨strLower modelName, method, strTrim argsRaw, "mongoose-model", none⟩
    else none

/-- `extractQueriesFromContent`: the concatenation, in source order, of the
direct-call matches, the chained matches, and the per-line Mongoose matches
of `content`. -/
def extractQueriesFromContent (driverMatches : List DriverMatch)
    (chainedMatches : List ChainedMatch) (content : String) : List Query :=
  driverMatches.filterMap processDriverMatch
    ++ chainedMatches.filterMap processChainedMatch
    ++ (splitNewlines content).filterMap processMongooseLine

/-! ## Plan trees (the raw `explain` shape walked by `analyze-explains.js`)

`summarizeExplain` reads `explain.executionStats` (four numeric fields) and
walks `explain.queryPlanner.winningPlan`, a recursively nested tree.  The used fields of a node are `indexName`, `stage`, `inputStage` (nullable node), `shards`
(optional array of shard objects, of which only `winningPlan` is read) and
`inputStages` (optional array of nodes).  The tree is modelled as a mutual
inductive family so that all walks are plain structural recursions:
`PlanOpt` is a nullable node, `ShardsOpt`/`PlansOpt` distinguish an absent
array from a present one (JavaScript treats even an empty present array as
truthy), and each `ShardList` entry is the `winningPlan` of one shard. -/

mutual
inductive PlanNode : Type where
  | node (indexName : Option String) (stage : Option String)
      (inputStage : PlanOpt) (shards : ShardsOpt) (inputStages : PlansOpt) : PlanNode

inductive PlanOpt : Type where
  | none : PlanOpt
  | some (p : PlanNode) : PlanOpt

inductive ShardsOpt : Type where
  | absent : ShardsOpt
  | present (l : ShardList) : ShardsOpt

inductive ShardList : Type where
  | nil : ShardList
  | cons (winningPlan : PlanOpt) (rest : ShardList) : ShardList

inductive PlansOpt : Type where
  | absent : PlansOpt
  | present (l : PlanList) : PlansOpt

inductive PlanList : Type where
  | nil : PlanList
  | cons (p : PlanNode) (rest : PlanList) : PlanList
end

/-- Truthiness of an optional string attribute (`if (plan.indexName)`). -/
def optTruthy (o : Option String) : Bool :=
  match o with
  | some s => s != ""
  | none => false

/-- Presence of a nullable plan (`if (plan.inputStage)`). -/
def isSomePlan : PlanOpt → Bool
  | .none => false
  | .some _ => true

/-- Length test `plan.shards.length > 0` on a present shard array. -/
def shardListNonempty : ShardList → Bool
  | .nil => false
  | .cons _ _ => true

/-- Length test `plan.inputStages.length > 0` on a present stage array. -/
def planListNonempty : PlanList → Bool
  | .nil => false
  | .cons _ _ => true

mutual
/-- `findIndexName` of `analyze-explains.js` (lines 27-46) on a nullable
plan. -/
def findIndexName : PlanOpt → Option String
  | .none => Option.none
  | .some p => findIndexNode p

/-- `findIndexName` on a non-null plan node: return a truthy `indexName`;
else commit to the `inputStage` chain when present; else scan the winning plans of the shard array; then the (dead, kept verbatim) FETCH/IXSCAN lines; else scan
`inputStages` when present and non-empty. -/
def findIndexNode : PlanNode → Option String
  | .node idx stg inp shards inps =>
    if optTruthy idx then idx
    else if isSomePlan inp then findIndexName inp
    else
      match (match shards with
             | .present l => findIndexShards l
             | .absent => Option.none) with
      | Option.some s => Option.some s
      | Option.none =>
        if stg == Option.some "FETCH" && isSomePlan inp then findIndexName inp
        else if stg == Option.some "IXSCAN" && optTruthy idx then idx
        else
          match inps with
          | .present l => if planListNonempty l then findIndexList l else Option.none
          | .absent => Option.none

/-- The `for (const shard of plan.shards)` loop: first truthy result wins. -/
def findIndexShards : ShardList → Option String
  | .nil => Option.none
  | .cons wp rest =>
    match findIndexName wp with
    | Option.some s => Option.some s
    | Option.none => findIndexShards rest

/-- The `for (const s of plan.inputStages)` loop: first truthy result wins. -/
def findIndexList : PlanList → Option String
  | .nil => Option.none
  | .cons p rest =>
    match findIndexNode p with
    | Option.some s => Option.some s
    | Option.none => findIndexList rest
end

/-- `findStage` of `analyze-explains.js` (lines 48-55): a truthy `stage` on
the node, else the winning plan of the first shard when the shard array is present
and non-empty. -/
def findStage : PlanOpt → Option String
  | .none => Option.none
  | .some (.node _ stg _ shards _) =>
    if optTruthy stg then stg
    else
      match shards with
      | .present (.cons wp _) => findStage wp
      | _ => Option.none

mutual
/-- A node anywhere in the tree (the node itself, its `inputStage` chain, its
shard winning plans, its `inputStages` list) carries a truthy index-name
attribute.  This is the notion of "an index anywhere" used by the claim, independent of
the search order of `findIndexName`. -/
def planHasIndex : PlanNode → Bool
  | .node idx _ inp shards inps =>
    optTruthy idx || planOptHasIndex inp || shardsHasIndex shards || plansHasIndex inps

def planOptHasIndex : PlanOpt → Bool
  | .none => false
  | .some p => planHasIndex p

def shardsHasIndex : ShardsOpt → Bool
  | .absent => false
  | .present l => shardListHasIndex l

def shardListHasIndex : ShardList → Bool
  | .nil => false
  | .cons wp rest => planOptHasIndex wp || shardListHasIndex rest

def plansHasIndex : PlansOpt → Bool
  | .absent => false
  | .present l => planListHasIndex l

def planListHasIndex : PlanList → Bool
  | .nil => false
  | .cons p rest => planHasIndex p || planListHasIndex rest
end

/-! ## Explain documents and payloads -/

/-- The `executionStats` section of a raw explain document; each field may be
absent. -/
structure ExecutionStats where
  executionTimeMillis : Option Nat
  totalDocsExamined : Option Nat
  totalDocsReturned : Option Nat
  totalKeysExamined : Option Nat
deriving Repr

/-- The `queryPlanner` section: only `winningPlan` is read. -/
structure QueryPlanner where
  winningPlan : PlanOpt

/-- A raw explain document as consumed by `summarizeExplain`. -/
structure Explain where
  executionStats : Option ExecutionStats
  queryPlanner : Option QueryPlanner

/-- The value stored in the `explain` field of a result record by
`getExplainResult`: a real explain document, an `{ error: msg }` object, or
the `{ info: msg }` marker for insert methods. -/
inductive ExplainPayload where
  | success : Explain → ExplainPayload
  | errObj : String → ExplainPayload
  | infoObj : String → ExplainPayload

/-- Property access `explain.executionStats` on a payload object: only real
explain documents carry it. -/
def payloadStats : ExplainPayload → Option ExecutionStats
  | .success e => e.executionStats
  | .errObj _ => none
  | .infoObj _ => none

/-- Property access `explain.queryPlanner` on a payload object. -/
def payloadPlanner : ExplainPayload → Option QueryPlanner
  | .success e => e.queryPlanner
  | .errObj _ => none
  | .infoObj _ => none

/-! ## Plan Execution Engine (`run-profiler.js`)

`JSON.parse` and `eval` are host-language primitives and enter as the
parameters `jsonParse` and `evalJs`; `evalJs v` stands for
``eval(`(${v})`)`` (an `Except.error` is a thrown exception).  The database
round-trip enters as the parameter `db`: the engine hands it either a find
cursor described by the ordered list of cursor methods applied before
`.explain('executionStats')`, or an aggregate pipeline; an `Except.error` is
a driver/server exception, caught by the `try/catch` of `getExplainResult`. -/

/-- One cursor-builder call applied before `.explain()`; `skipOp none`
records `cursor.skip(NaN)`. -/
inductive CursorOp where
  | findOp (filter : JsVal)
  | projectOp (v : JsVal)
  | sortOp (v : JsVal)
  | limitOp (n : Nat)
  | skipOp (n : Option Int)

/-- One instrumented request issued to the database. -/
inductive DbOp where
  | findExplain (ops : List CursorOp)
  | aggExplain (pipeline : List JsVal)

/-- `parseRawQuery` of `run-profiler.js` (lines 14-27): strict `JSON.parse`
first, then the `eval` fallback, `none` when both throw. -/
def parseRawQuery (jsonParse : String → Except String JsVal)
    (evalJs : JsVal → Except String JsVal) (raw : String) : Option JsVal :=
  match jsonParse raw with
  | .ok v => some v
  | .error _ =>
    match evalJs (.vStr raw) with
    | .ok v => some v
    | .error _ => none

/-- Conversion of a database round-trip into the stored payload: the
function-wide `try/catch` of `getExplainResult` turns a thrown error into
`{ error: err.message }`. -/
def wrapDb (r : Except String Explain) : ExplainPayload :=
  match r with
  | .ok e => .success e
  | .error msg => .errObj msg

/-- The cursor built by the `pattern === 'chained'` branch (lines 33-48):
`find` (eval of the `find` part, else `{}`), then `project` and `sort` when
present, then — always — `limit(MAX_DOCS_EXAMINED)`, then `skip` when
present.  Any `limit` part recovered from the chain is never read. -/
def buildChainedOps (evalJs : JsVal → Except String JsVal)
    (maxDocsExamined : Nat) (parsed : JsVal) : Except String (List CursorOp) := do
  let filter ←
    if jsTruthy (getField parsed "find") then evalJs (getField parsed "find")
    else pure (JsVal.vObj [])
  let ops1 := [CursorOp.findOp filter]
  let ops2 ←
    if jsTruthy (getField parsed "project") then do
      let p ← evalJs (getField parsed "project")
      pure (ops1 ++ [CursorOp.projectOp p])
    else pure ops1
  let ops3 ←
    if jsTruthy (getField parsed "sort") then do
      let s ← evalJs (getField parsed "sort")
      pure (ops2 ++ [CursorOp.sortOp s])
    else pure ops2
  let ops4 := ops3 ++ [CursorOp.limitOp maxDocsExamined]
  let ops5 :=
    if jsTruthy (getField parsed "skip") then
      ops4 ++ [CursorOp.skipOp (parseIntJs (getField parsed "skip"))]
    else ops4
  pure ops5

/-- `getExplainResult` of `run-profiler.js` (lines 30-113). -/
def getExplainResult (jsonParse : String → Except String JsVal)
    (evalJs : JsVal → Except String JsVal) (db : DbOp → Except String Explain)
    (maxDocsExamined : Nat) (method rawQuery : String)
    (patternTag : Option String) : ExplainPayload :=
  if patternTag == some "chained" then
    wrapDb (do
      let parsed ← jsonParse rawQuery
      let ops ← buildChainedOps evalJs maxDocsExamined parsed
      db (.findExplain ops))
  else
    match parseRawQuery jsonParse evalJs rawQuery with
    | none => .errObj "Invalid query syntax"
    | some queryObj =>
      if !jsTruthy queryObj then .errObj "Invalid query syntax"
      else
        match strLower method with
        | "find" | "findone" =>
          wrapDb (db (.findExplain [.findOp queryObj, .limitOp maxDocsExamined]))
        | "findbyid" =>
          let id := if isStr queryObj then queryObj
                    else jsOr (getField queryObj "_id") (getField queryObj "id")
          wrapDb (db (.findExplain [.findOp (.vObj [("_id", id)]), .limitOp maxDocsExamined]))
        | "aggregate" =>
          match queryObj with
          | .vArr pipeline =>
            wrapDb (db (.aggExplain
              (pipeline ++ [JsVal.vObj [("$limit", JsVal.vNum (Int.ofNat maxDocsExamined))]])))
          | _ => .errObj "Aggregate pipeline must be an array"
        | "updateone" | "updatemany" | "replaceone" =>
          match queryObj with
          | .vArr (first :: _) =>
            wrapDb (db (.findExplain [.findOp first, .limitOp maxDocsExamined]))
          | _ => wrapDb (db (.findExplain [.findOp queryObj, .limitOp maxDocsExamined]))
        | "deleteone" | "deletemany" =>
          wrapDb (db (.findExplain [.findOp queryObj, .limitOp maxDocsExamined]))
        | "countdocuments" | "estimateddocumentcount" =>
          wrapDb (db (.findExplain [.findOp queryObj, .limitOp maxDocsExamined]))
        | "distinct" =>
          match queryObj with
          | .vArr (_ :: second :: _) =>
            wrapDb (db (.findExplain
              [.findOp (jsOr second (.vObj [])), .limitOp maxDocsExamined]))
          | _ => wrapDb (db (.findExplain [.findOp (.vObj []), .limitOp maxDocsExamined]))
        | "insertone" | "insertmany" =>
          .infoObj "Insert operations do not require query optimization"
        | _ => .errObj ("Unsupported method: " ++ method)

/-- One element of `queries.json` as read by `main` of `run-profiler.js`. -/
structure QueryIn where
  file : Option String
  collection : Option String
  method : String
  rawQuery : String
  pattern : Option String

/-- One element of the results array written by `main` of `run-profiler.js`
and read back by `analyze-explains.js`. -/
structure ResultRecord where
  file : Option String
  collection : Option String
  method : String
  rawQuery : String
  pattern : Option String
  explain : Option ExplainPayload
  error : Option String

/-- The body of the per-descriptor loop of `main` (lines 141-175): a missing
collection name yields an error record; otherwise the `getExplainResult`
payload is stored under `explain` with `pattern` defaulted to `legacy`.
`getExplainResult` catches every exception it can raise, so the surrounding
`catch` (for exceptions outside it) is unreachable in this model. -/
def processQuery (jsonParse : String → Except String JsVal)
    (evalJs : JsVal → Except String JsVal) (db : DbOp → Except String Explain)
    (maxDocsExamined : Nat) (q : QueryIn) : ResultRecord :=
  if !truthyOptStr q.collection then
    ⟨q.file, q.collection, q.method, q.rawQuery, none, none, some "Collection name missing"⟩
  else
    ⟨q.file, q.collection, q.method, q.rawQuery, some (jsOrStr q.pattern "legacy"),
      some (getExplainResult jsonParse evalJs db maxDocsExamined q.method q.rawQuery q.pattern),
      none⟩

/-- The full per-descriptor loop: one result record per descriptor, in
order. -/
def mainLoop (jsonParse : String → Except String JsVal)
    (evalJs : JsVal → Except String JsVal) (db : DbOp → Except String Explain)
    (maxDocsExamined : Nat) (queries : List QueryIn) : List ResultRecord :=
  queries.map (processQuery jsonParse evalJs db maxDocsExamined)

/-! ## Plan Normalizer (`summarizeExplain` of `analyze-explains.js`) -/

/-- The flat metrics record produced by `summarizeExplain`. -/
structure Summary where
  totalMillis : Nat
  indexUsed : String
  stage : String
  docsExamined : Nat
  docsReturned : Nat
  keysExamined : Nat
deriving Repr, DecidableEq

/-- `explain?.executionStats || {}` (an absent section reads as all-absent
fields). -/
def explainStats (explain : Option ExplainPayload) : Option ExecutionStats :=
  explain.bind payloadStats

/-- `explain?.queryPlanner?.winningPlan`. -/
def explainWinningPlan (explain : Option ExplainPayload) : PlanOpt :=
  match explain.bind payloadPlanner with
  | some qp => qp.winningPlan
  | none => PlanOpt.none

/-- `stats.field || 0` (both an absent field and an explicit 0 yield 0). -/
def statOr0 (o : Option Nat) : Nat := (o.getD 0)

/-- `summarizeExplain` of `analyze-explains.js` (lines 19-68). -/
def summarizeExplain (explain : Option ExplainPayload) : Summary :=
  let stats := explainStats explain
  let totalMillis := statOr0 (stats.bind (fun s => s.executionTimeMillis))
  let docsExamined := statOr0 (stats.bind (fun s => s.totalDocsExamined))
  let docsReturned := statOr0 (stats.bind (fun s => s.totalDocsReturned))
  let keysExamined := statOr0 (stats.bind (fun s => s.totalKeysExamined))
  let wp := explainWinningPlan explain
  let indexUsed := jsOrStr (findIndexName wp) "None"
  let stage := jsOrStr (findStage wp) "Unknown"
  ⟨totalMillis, indexUsed, stage, docsExamined, docsReturned, keysExamined⟩

/-! ## Classifier (`analyzePerformance` of `analyze-explains.js`)

The pushed message strings are abstracted to tags carrying their numeric
parameters; the `THRESHOLDS` module constant is passed explicitly
(environment loading is out-of-scope plumbing).  `MIN_QUERY_EFFICIENCY` and
the efficiency ratio are exact rationals. -/

/-- The `THRESHOLDS` configuration. -/
structure Thresholds where
  maxExecutionTimeMs : Nat
  warnExecutionTimeMs : Nat
  maxDocsExamined : Nat
  minQueryEfficiency : ℚ

/-- The default thresholds (`MAX_EXECUTION_TIME_MS=100`,
`WARN_EXECUTION_TIME_MS=50`, `MAX_DOCS_EXAMINED=500`,
`MIN_QUERY_EFFICIENCY=0.1`). -/
def defaultThresholds : Thresholds := ⟨100, 50, 500, (1 : ℚ) / 10⟩

/-- Tags for the issue messages pushed by `analyzePerformance`. -/
inductive Issue where
  | slowQuery (ms : Nat)
  | noIndex
  | highDocsExamined (docs : Nat)
deriving DecidableEq, Repr

/-- Tags for the warning messages pushed by `analyzePerformance`. -/
inductive Warning where
  | emptyCollection
  | moderateTime (ms : Nat)
  | lowEfficiency (docsReturned docsExamined : Nat)
  | examinedNoneReturned (docsExamined : Nat)
deriving DecidableEq, Repr

/-- Tags for the suggestion messages pushed by `analyzePerformance`. -/
inductive Suggestion where
  | addTestData
  | optimizeFilters
  | addIndex
  | reduceExamination
  | moreSelectiveFilters
  | reviewFilters
deriving DecidableEq, Repr

/-- The classifier output for one metrics record. -/
structure Analysis where
  performanceScore : String
  issues : List Issue
  warnings : List Warning
  suggestions : List Suggestion
deriving DecidableEq, Repr

/-- The final score expression (line 123):
`issues.length === 0 ? (warnings.length === 0 ? Good, else Fair) else Poor`. -/
def scoreOf (issues : List Issue) (warnings : List Warning) : String :=
  if issues.length = 0 then (if warnings.length = 0 then "Good" else "Fair") else "Poor"

/-- `analyzePerformance` of `analyze-explains.js` (lines 70-128).  The
sequential pushes are grouped per list, preserving push order. -/
def analyzePerformance (result : Summary) (TH : Thresholds) : Analysis :=
  if result.stage = "EOF" then
    ⟨"Good", [], [Warning.emptyCollection], [Suggestion.addTestData]⟩
  else
    let slow := result.totalMillis > TH.maxExecutionTimeMs
    let moderate := ¬ slow ∧ result.totalMillis > TH.warnExecutionTimeMs
    let noIdx := result.indexUsed = "None" ∨ result.stage = "COLLSCAN"
    let highDocs := result.docsExamined > TH.maxDocsExamined
    let lowEff := result.docsExamined > 0 ∧ result.docsReturned > 0 ∧
      (result.docsReturned : ℚ) / (result.docsExamined : ℚ) < TH.minQueryEfficiency
    let noneReturned := result.docsExamined > 0 ∧ result.docsReturned = 0
    let issues :=
      (if slow then [Issue.slowQuery result.totalMillis] else [])
        ++ (if noIdx then [Issue.noIndex] else [])
        ++ (if highDocs then [Issue.highDocsExamined result.docsExamined] else [])
    let warnings :=
      (if moderate then [Warning.moderateTime result.totalMillis] else [])
        ++ (if lowEff then [Warning.lowEfficiency result.docsReturned result.docsExamined] else [])
        ++ (if noneReturned then [Warning.examinedNoneReturned result.docsExamined] else [])
    let suggestions :=
      (if slow then [Suggestion.optimizeFilters] else [])
        ++ (if noIdx then [Suggestion.addIndex] else [])
        ++ (if highDocs then [Suggestion.reduceExamination] else [])
        ++ (if lowEff then [Suggestion.moreSelectiveFilters] else [])
        ++ (if noneReturned then [Suggestion.reviewFilters] else [])
    ⟨scoreOf issues warnings, issues, warnings, suggestions⟩

/-! ## Report Generator (success counting of `generatePRReport`) -/

/-- `r.explain && !r.error` (lines 148 and 163 of `analyze-explains.js`): a
record counts as a successful analysis. -/
def isSuccessRecord (r : ResultRecord) : Bool :=
  r.explain.isSome && !(truthyOptStr r.error)

/-- `results.filter(r => r.explain && !r.error).length`. -/
def successfulCount (results : List ResultRecord) : Nat :=
  (results.filter isSuccessRecord).length

/-- The per-record classifications computed by the report (line 162-164):
`analyzePerformance(summarizeExplain(r.explain))` over successful records. -/
def performancesOf (results : List ResultRecord) (TH : Thresholds) : List Analysis :=
  (results.filter isSuccessRecord).map
    (fun r => analyzePerformance (summarizeExplain r.explain) TH)

/-! ## Helper lemmas about the index search -/

mutual
theorem findIndexNode_eq_none (p : PlanNode) (h : planHasIndex p = false) :
    findIndexNode p = Option.none := by
  match p with
  | .node idx stg inp shards inps =>
    simp only [planHasIndex, Bool.or_eq_false_iff] at h
    obtain ⟨⟨⟨h1, h2⟩, h3⟩, h4⟩ := h
    cases inp with
    | some q =>
      simp only [findIndexNode, h1, isSomePlan, if_false, Bool.false_eq_true, if_true]
      exact findIndexName_eq_none (.some q) h2
    | none =>
      cases shards with
      | present l =>
        simp only [shardsHasIndex] at h3
        cases inps with
        | present l2 =>
          simp only [plansHasIndex] at h4
          simp [findIndexNode, h1, isSomePlan, findIndexShards_eq_none l h3,
            findIndexList_eq_none l2 h4]
        | absent =>
          simp [findIndexNode, h1, isSomePlan, findIndexShards_eq_none l h3]
      | absent =>
        cases inps with
        | present l2 =>
          simp only [plansHasIndex] at h4
          simp [findIndexNode, h1, isSomePlan, findIndexList_eq_none l2 h4]
        | absent =>
          simp [findIndexNode, h1, isSomePlan]

theorem findIndexName_eq_none (op : PlanOpt) (h : planOptHasIndex op = false) :
    findIndexName op = Option.none := by
  match op with
  | .none => rfl
  | .some p =>
    simp only [planOptHasIndex] at h
    simp only [findIndexName]
    exact findIndexNode_eq_none p h

theorem findIndexShards_eq_none (l : ShardList) (h : shardListHasIndex l = false) :
    findIndexShards l = Option.none := by
  match l with
  | .nil => rfl
  | .cons wp rest =>
    simp only [shardListHasIndex, Bool.or_eq_false_iff] at h
    simp [findIndexShards, findIndexName_eq_none wp h.1, findIndexShards_eq_none rest h.2]

theorem findIndexList_eq_none (l : PlanList) (h : planListHasIndex l = false) :
    findIndexList l = Option.none := by
  match l with
  | .nil => rfl
  | .cons p rest =>
    simp only [planListHasIndex, Bool.or_eq_false_iff] at h
    simp [findIndexList, findIndexNode_eq_none p h.1, findIndexList_eq_none rest h.2]
end

/-! ## Helper lemmas about the score expression -/

theorem scoreOf_eq_poor_iff (i : List Issue) (w : List Warning) :
    scoreOf i w = "Poor" ↔ i ≠ [] := by
  cases i <;> cases w <;> simp [scoreOf]

theorem scoreOf_eq_fair_iff (i : List Issue) (w : List Warning) :
    scoreOf i w = "Fair" ↔ (i = [] ∧ w ≠ []) := by
  cases i <;> cases w <;> simp [scoreOf]

theorem scoreOf_eq_good_iff (i : List Issue) (w : List Warning) :
    scoreOf i w = "Good" ↔ (i = [] ∧ w = []) := by
  cases i <;> cases w <;> simp [scoreOf]

/-! ## Helper lemmas about the chained query-parts object -/

theorem objInsert_mem (ps : List (String × String)) (k v : String)
    (kv : String × String) (h : kv ∈ objInsert ps k v) : kv ∈ ps ∨ kv.2 = v := by
  unfold objInsert at h
  split at h
  · rcases List.mem_map.mp h with ⟨p, hp, he⟩
    by_cases hk : p.1 = k
    · right
      rw [if_pos hk] at he
      rw [← he]
    · left
      rw [if_neg hk] at he
      rwa [← he]
  · rcases List.mem_append.mp h with h1 | h2
    · exact Or.inl h1
    · right
      rw [List.mem_singleton.mp h2]

/-- The argument filter of the chained rule (line 80 of
`extract-queries.js`): truthy, not exactly `{}`, no elision marker. -/
def keptChainArg (v : String) : Prop :=
  v ≠ "" ∧ v ≠ "\x7b\x7d" ∧ strContains v "..." = false

theorem chainPartStep_mem (acc : List (String × String)) (m : String × String)
    (p : String × String) (hp : p ∈ chainPartStep acc m) :
    p ∈ acc ∨ keptChainArg p.2 := by
  unfold chainPartStep at hp
  split at hp
  · rename_i hcond
    simp only [Bool.and_eq_true, bne_iff_ne, ne_eq, Bool.not_eq_true'] at hcond
    rcases objInsert_mem _ _ _ _ hp with hin | heq
    · exact Or.inl hin
    · exact Or.inr (heq ▸ ⟨hcond.1.1, hcond.1.2, hcond.2⟩)
  · exact Or.inl hp

theorem buildQueryParts_aux (ms : List (String × String))
    (acc : List (String × String)) (hacc : ∀ kv ∈ acc, keptChainArg kv.2) :
    ∀ kv ∈ ms.foldl chainPartStep acc, keptChainArg kv.2 := by
  induction ms generalizing acc with
  | nil => exact hacc
  | cons m rest ih =>
    intro kv hkv
    rw [List.foldl_cons] at hkv
    refine ih _ ?_ kv hkv
    intro p hp
    rcases chainPartStep_mem acc m p hp with hin | hkept
    · exact hacc p hin
    · exact hkept

/-- Every value stored in `queryParts` passed the chained-rule filter. -/
theorem buildQueryParts_mem (ms : List (String × String))
    (kv : String × String) (h : kv ∈ buildQueryParts ms) : keptChainArg kv.2 :=
  buildQueryParts_aux ms [] (by intro p hp; cases hp) kv h

/-! ## Claim C3 — placeholder filtering -/

/-- C3 (amended): placeholder arguments are filtered asymmetrically across
the three recognition rules.  The direct-call rule drops a call-site whose
trimmed argument is empty, exactly `{}`, exactly `[]`, or contains `...`;
the chained rule keeps only parts that are non-empty, not exactly `{}` and
free of `...` — but it does not drop `[]`; the named-entity (Mongoose) rule
likewise drops empty, `{}` and `...` arguments but not `[]`.  The `rawQuery` of a chained
descriptor is exactly the JSON serialization of its filtered
parts. -/
theorem C3_placeholder_filtering :
    (∀ m q, processDriverMatch m = some q →
        q.rawQuery ≠ "" ∧ q.rawQuery ≠ "\x7b\x7d" ∧ q.rawQuery ≠ "[]" ∧
          strContains q.rawQuery "..." = false) ∧
      (∀ ms kv, kv ∈ buildQueryParts ms →
        kv.2 ≠ "" ∧ kv.2 ≠ "\x7b\x7d" ∧ strContains kv.2 "..." = false) ∧
      (∀ m q, processChainedMatch m = some q →
        q.rawQuery = jsonStringifyFlat (buildQueryParts (chainCalls m.chainedMethods.data))) ∧
      (∀ line q, processMongooseLine line = some q →
        q.rawQuery ≠ "" ∧ q.rawQuery ≠ "\x7b\x7d" ∧ strContains q.rawQuery "..." = false) := by
  refine ⟨fun m q h => ?_, fun ms kv h => buildQueryParts_mem ms kv h,
    fun m q h => ?_, fun line q h => ?_⟩
  · unfold processDriverMatch at h
    split at h
    · exact absurd h (by simp)
    · rename_i hcond
      simp only [isPlaceholderArg, Bool.or_eq_true, beq_iff_eq, Bool.not_eq_true] at hcond
      push_neg at hcond
      obtain ⟨⟨⟨h1, h2⟩, h3⟩, h4⟩ := hcond
      cases h
      exact ⟨h1, h2, h3, by simpa using h4⟩
  · unfold processChainedMatch at h
    split at h
    · exact absurd h (by simp)
    · rename_i ms meth arg restMs heq
      split at h
      · cases h
        rw [heq]
      · exact absurd h (by simp)
  · unfold processMongooseLine at h
    split at h
    · exact absurd h (by simp)
    · split at h
      · rename_i hcond
        simp only [Bool.and_eq_true, bne_iff_ne, ne_eq, Bool.not_eq_true'] at hcond
        cases h
        exact ⟨hcond.1.1.2, hcond.1.2, hcond.2⟩
      · exact absurd h (by simp)

/-- C3 witness: the filters applied to concrete matches of each rule. -/
theorem C3_witness :
    ((⟨"users", "find", "x", "mongodb-driver", some "db"⟩ : Query).rawQuery ≠ "[]") ∧
      (("xyz" : String) ≠ "" ∧ "xyz" ≠ "\x7b\x7d" ∧ strContains "xyz" "..." = false) ∧
      ((⟨"users", "find", jsonStringifyFlat [("find", "xyz")], "chained", some "db"⟩ :
          Query).rawQuery
        = jsonStringifyFlat (buildQueryParts (chainCalls (".find(xyz)" : String).data))) ∧
      ((⟨"product", "find", "xyz", "mongoose-model", none⟩ : Query).rawQuery ≠ "\x7b\x7d") :=
  ⟨(C3_placeholder_filtering.1 ⟨"db", "users", "find", " x "⟩
      ⟨"users", "find", "x", "mongodb-driver", some "db"⟩ rfl).2.2.1,
    (C3_placeholder_filtering.2.1 [("find", "xyz")] ("find", "xyz") (by decide)),
    (C3_placeholder_filtering.2.2.1 ⟨"db", "users", ".find(xyz)"⟩
      ⟨"users", "find", jsonStringifyFlat [("find", "xyz")], "chained", some "db"⟩ (by decide)),
    (C3_placeholder_filtering.2.2.2 "Product.find(xyz)"
      ⟨"product", "find", "xyz", "mongoose-model", none⟩ rfl).2.1⟩

/-- C3 counterexample: a call-site whose argument text is exactly `[]`
yields a descriptor under the named-entity rule
(`Product.aggregate([])` produces a `mongoose-model` descriptor with
`rawQuery = "[]"`) and under the chained rule (`.find([])` on a collection
accessor produces a `chained` descriptor whose parts keep `[]`), refuting
the claim that all three rules drop the `[]` placeholder. -/
theorem C3_counterexample :
    extractQueriesFromContent [] [] "Product.aggregate([])" =
        [⟨"product", "aggregate", "[]", "mongoose-model", none⟩] ∧
      processChainedMatch ⟨"db", "users", ".find([])"⟩ =
        some ⟨"users", "find", jsonStringifyFlat [("find", "[]")], "chained", some "db"⟩ :=
  ⟨rfl, rfl⟩

/-! ## Concrete stubs for the host-machinery parameters -/

/-- A `JSON.parse` that throws on every input. -/
def failParse : String → Except String JsVal := fun _ => .error "Unexpected token"

/-- An `eval` that throws on every input. -/
def failJsEval : JsVal → Except String JsVal := fun _ => .error "SyntaxError"

/-- A database handle that rejects every request. -/
def failDb : DbOp → Except String Explain := fun _ => .error "MongoServerError"

/-- A database handle that accepts every request with an empty explain
document. -/
def okDb : DbOp → Except String Explain := fun _ => .ok ⟨none, none⟩

/-- An `eval` that returns its (already structured) argument. -/
def idJsEval : JsVal → Except String JsVal := fun v => .ok v

/-! ## Claim C1 — discriminated result records -/

/-- C1 (amended): the per-descriptor loop yields exactly one record per
descriptor, and in every record exactly one of the `explain` field and the
record-level `error` is populated.  However, reconstruction and execution
failures inside `getExplainResult` are stored as an error object inside the
`explain` field with the record-level `error` unset; only a missing
collection name sets the record-level `error`. -/
theorem C1_discriminated_records (jsonParse : String → Except String JsVal)
    (evalJs : JsVal → Except String JsVal) (db : DbOp → Except String Explain)
    (maxD : Nat) (queries : List QueryIn) :
    (mainLoop jsonParse evalJs db maxD queries).length = queries.length ∧
      ∀ r ∈ mainLoop jsonParse evalJs db maxD queries,
        (r.explain.isSome ↔ r.error = none) ∧
        (r.error ≠ none → r.error = some "Collection name missing") := by
  refine ⟨by simp [mainLoop], fun r hr => ?_⟩
  simp only [mainLoop, List.mem_map] at hr
  obtain ⟨q, _, rfl⟩ := hr
  unfold processQuery
  by_cases hc : truthyOptStr q.collection
  · simp [hc]
  · simp [hc]

/-- C1 witness: a one-descriptor batch with a missing collection name yields
one record satisfying the exactly-one invariant. -/
theorem C1_witness :
    (mainLoop failParse failJsEval failDb 500 [⟨none, none, "find", "q", none⟩]).length = 1 ∧
      ((processQuery failParse failJsEval failDb 500
            ⟨none, none, "find", "q", none⟩).explain.isSome ↔
        (processQuery failParse failJsEval failDb 500
            ⟨none, none, "find", "q", none⟩).error = none) :=
  ⟨(C1_discriminated_records failParse failJsEval failDb 500
      [⟨none, none, "find", "q", none⟩]).1,
    ((C1_discriminated_records failParse failJsEval failDb 500
        [⟨none, none, "find", "q", none⟩]).2
      (processQuery failParse failJsEval failDb 500 ⟨none, none, "find", "q", none⟩)
      (by simp [mainLoop])).1⟩

/-- C1 counterexample: a descriptor whose argument text fails both parse
attempts (a reconstruction failure) produces a record whose record-level
`error` is `none` — the failure is stored inside the `explain` field
instead — refuting "every reconstruction or execution failure ... is
converted into a record with errorMessage set". -/
theorem C1_counterexample :
    (processQuery failParse failJsEval failDb 500
        ⟨some "a.js", some "users", "find", "???", none⟩).error = none ∧
      (processQuery failParse failJsEval failDb 500
          ⟨some "a.js", some "users", "find", "???", none⟩).explain
        = some (.errObj "Invalid query syntax") :=
  ⟨rfl, rfl⟩

/-! ## Claim C4 — chained reconstruction order -/

/-- C4 (amended): for a `chained` descriptor whose recovered parts carry
`find`, `project`, `sort`, `skip` and even a `limit` entry, the engine
applies the cursor methods in the fixed order
filter → projection → sort → `limit(MAX_DOCS_EXAMINED)` → skip: the
result-size cap is applied unconditionally after `sort` and before `skip`
(not last), and the own `limit` entry of the chain is ignored entirely. -/
theorem C4_chained_order (jsonParse : String → Except String JsVal)
    (evalJs : JsVal → Except String JsVal) (db : DbOp → Except String Explain)
    (maxD : Nat) (method raw fS pS sS kS lS : String) (fV pV sV : JsVal)
    (hjson : jsonParse raw = .ok (.vObj
      [("find", .vStr fS), ("project", .vStr pS), ("sort", .vStr sS),
       ("skip", .vStr kS), ("limit", .vStr lS)]))
    (hf : fS ≠ "") (hp : pS ≠ "") (hs : sS ≠ "") (hk : kS ≠ "")
    (hef : evalJs (.vStr fS) = .ok fV) (hep : evalJs (.vStr pS) = .ok pV)
    (hes : evalJs (.vStr sS) = .ok sV) :
    getExplainResult jsonParse evalJs db maxD method raw (some "chained") =
      wrapDb (db (.findExplain
        [.findOp fV, .projectOp pV, .sortOp sV, .limitOp maxD,
         .skipOp (parseIntJs (.vStr kS))])) := by
  have hops : buildChainedOps evalJs maxD (JsVal.vObj
      [("find", .vStr fS), ("project", .vStr pS), ("sort", .vStr sS),
       ("skip", .vStr kS), ("limit", .vStr lS)]) =
      .ok [.findOp fV, .projectOp pV, .sortOp sV, .limitOp maxD,
           .skipOp (parseIntJs (.vStr kS))] := by
    have g1 : getField (JsVal.vObj
        [("find", .vStr fS), ("project", .vStr pS), ("sort", .vStr sS),
         ("skip", .vStr kS), ("limit", .vStr lS)]) "find" = .vStr fS := rfl
    have g2 : getField (JsVal.vObj
        [("find", .vStr fS), ("project", .vStr pS), ("sort", .vStr sS),
         ("skip", .vStr kS), ("limit", .vStr lS)]) "project" = .vStr pS := rfl
    have g3 : getField (JsVal.vObj
        [("find", .vStr fS), ("project", .vStr pS), ("sort", .vStr sS),
         ("skip", .vStr kS), ("limit", .vStr lS)]) "sort" = .vStr sS := rfl
    have g4 : getField (JsVal.vObj
        [("find", .vStr fS), ("project", .vStr pS), ("sort", .vStr sS),
         ("skip", .vStr kS), ("limit", .vStr lS)]) "skip" = .vStr kS := rfl
    unfold buildChainedOps
    simp only [g1, g2, g3, g4, jsTruthy]
    simp [hf, hp, hs, hk, hef, hep, hes, Bind.bind, Except.bind, Pure.pure, Except.pure]
  unfold getExplainResult
  rw [if_pos (by simp)]
  rw [hjson]
  simp only [Bind.bind, Except.bind, hops]

/-- C4 witness: the order theorem applied at a fully concrete chained
descriptor. -/
theorem C4_witness :
    getExplainResult
        (fun s => if s = "CHAIN5" then
          .ok (.vObj [("find", .vStr "fA"), ("project", .vStr "pA"),
            ("sort", .vStr "sA"), ("skip", .vStr "3"), ("limit", .vStr "9")])
          else .error "bad json")
        idJsEval okDb 500 "find" "CHAIN5" (some "chained") =
      wrapDb (okDb (.findExplain
        [.findOp (.vStr "fA"), .projectOp (.vStr "pA"), .sortOp (.vStr "sA"),
         .limitOp 500, .skipOp (parseIntJs (.vStr "3"))])) :=
  C4_chained_order
    (fun s => if s = "CHAIN5" then
      .ok (.vObj [("find", .vStr "fA"), ("project", .vStr "pA"),
        ("sort", .vStr "sA"), ("skip", .vStr "3"), ("limit", .vStr "9")])
      else .error "bad json")
    idJsEval okDb 500 "find" "CHAIN5" "fA" "pA" "sA" "3" "9"
    (.vStr "fA") (.vStr "pA") (.vStr "sA") rfl
    (by decide) (by decide) (by decide) (by decide) rfl rfl rfl

/-- A database handle accepting only the cursor-method order the engine
actually uses for a chained descriptor with a `skip` part: filter, then the
cap, then skip. -/
def dbCodeOrder : DbOp → Except String Explain := fun op =>
  match op with
  | .findExplain [.findOp (.vStr "fArg"), .limitOp 500, .skipOp (some 2)] => .ok ⟨none, none⟩
  | _ => .error "unexpected operation order"

/-- A database handle accepting only the order the claim states (cap applied
last, after skip). -/
def dbClaimOrder : DbOp → Except String Explain := fun op =>
  match op with
  | .findExplain [.findOp (.vStr "fArg"), .skipOp (some 2), .limitOp 500] => .ok ⟨none, none⟩
  | _ => .error "unexpected operation order"

/-- C4 counterexample: for a chained descriptor with a `skip` part, the
request issued by the engine succeeds against a database expecting
filter → limit-cap → skip and fails against one expecting the claimed
filter → skip → limit-cap order: the cap is not applied last. -/
theorem C4_counterexample :
    getExplainResult
        (fun s => if s = "CHAINQ" then
          .ok (.vObj [("find", .vStr "fArg"), ("skip", .vStr "2")]) else .error "bad json")
        idJsEval dbCodeOrder 500 "find" "CHAINQ" (some "chained") = .success ⟨none, none⟩ ∧
      getExplainResult
        (fun s => if s = "CHAINQ" then
          .ok (.vObj [("find", .vStr "fArg"), ("skip", .vStr "2")]) else .error "bad json")
        idJsEval dbClaimOrder 500 "find" "CHAINQ" (some "chained")
        = .errObj "unexpected operation order" :=
  ⟨rfl, rfl⟩

/-! ## Claim C9 — insert descriptors -/

/-- The informational marker stored for insert methods. -/
def insertInfoMsg : String := "Insert operations do not require query optimization"

/-- Evaluation of the classifier on the all-default metrics arising from an
`{ info: ... }` payload: no statistics, no plan, hence `indexUsed = "None"`,
`stage = "Unknown"`, and a `Poor` verdict with exactly the no-index issue,
for every threshold configuration. -/
theorem analyzePerformance_infoObj (msg : String) (TH : Thresholds) :
    analyzePerformance (summarizeExplain (some (.infoObj msg))) TH =
      ⟨"Poor", [Issue.noIndex], [], [Suggestion.addIndex]⟩ := by
  simp [analyzePerformance, scoreOf, summarizeExplain, explainStats,
    explainWinningPlan, payloadStats, payloadPlanner, statOr0, findIndexName,
    findStage, jsOrStr]

/-- C9 (amended): for every descriptor with a present collection name, a
non-`chained` pattern tag, method `insertOne`/`insertMany` (any casing), and
an argument text that reconstructs to a truthy value, the engine stores the
`{ info: ... }` marker in the `explain` field of the record with no record-level
error; the report counts the record as a successful analysis and classifies
it from all-zero normalized metrics with `indexName "None"` and
`stage "Unknown"`, producing a `Poor` verdict with the no-index issue.  (A
descriptor whose argument fails reconstruction instead stores an error
object — see the counterexample.) -/
theorem C9_insert_info_records (jsonParse : String → Except String JsVal)
    (evalJs : JsVal → Except String JsVal) (db : DbOp → Except String Explain)
    (maxD : Nat) (q : QueryIn) (v : JsVal)
    (hc : truthyOptStr q.collection = true)
    (hpat : q.pattern ≠ some "chained")
    (hm : strLower q.method = "insertone" ∨ strLower q.method = "insertmany")
    (hparse : parseRawQuery jsonParse evalJs q.rawQuery = some v)
    (htruthy : jsTruthy v = true) :
    (processQuery jsonParse evalJs db maxD q).explain = some (.infoObj insertInfoMsg) ∧
      (processQuery jsonParse evalJs db maxD q).error = none ∧
      isSuccessRecord (processQuery jsonParse evalJs db maxD q) = true ∧
      ∀ TH, analyzePerformance
          (summarizeExplain (processQuery jsonParse evalJs db maxD q).explain) TH
        = ⟨"Poor", [Issue.noIndex], [], [Suggestion.addIndex]⟩ := by
  have hx : getExplainResult jsonParse evalJs db maxD q.method q.rawQuery q.pattern
      = .infoObj insertInfoMsg := by
    unfold getExplainResult
    rw [if_neg (by simpa using hpat)]
    rw [hparse]
    have hb : (!jsTruthy v) = false := by simp [htruthy]
    rcases hm with hm | hm <;> simp only [hb, Bool.false_eq_true, if_false, hm] <;> rfl
  have hrec : processQuery jsonParse evalJs db maxD q =
      ⟨q.file, q.collection, q.method, q.rawQuery, some (jsOrStr q.pattern "legacy"),
        some (.infoObj insertInfoMsg), none⟩ := by
    unfold processQuery
    rw [if_neg (by simp [hc])]
    rw [hx]
  refine ⟨by rw [hrec], by rw [hrec], by rw [hrec]; rfl, fun TH => ?_⟩
  rw [hrec]
  exact analyzePerformance_infoObj insertInfoMsg TH

/-- C9 witness: a concrete `insertOne` descriptor with a parseable document
argument. -/
theorem C9_witness :
    (processQuery (fun _ => .ok (.vObj [("name", .vStr "Alice")])) failJsEval failDb 500
        ⟨some "a.js", some "users", "insertOne", "N", none⟩).explain
        = some (.infoObj insertInfoMsg) ∧
      isSuccessRecord (processQuery (fun _ => .ok (.vObj [("name", .vStr "Alice")]))
        failJsEval failDb 500 ⟨some "a.js", some "users", "insertOne", "N", none⟩) = true ∧
      analyzePerformance
          (summarizeExplain (processQuery (fun _ => .ok (.vObj [("name", .vStr "Alice")]))
            failJsEval failDb 500
            ⟨some "a.js", some "users", "insertOne", "N", none⟩).explain)
          defaultThresholds
        = ⟨"Poor", [Issue.noIndex], [], [Suggestion.addIndex]⟩ :=
  ⟨(C9_insert_info_records (fun _ => .ok (.vObj [("name", .vStr "Alice")])) failJsEval failDb
      500 ⟨some "a.js", some "users", "insertOne", "N", none⟩ (.vObj [("name", .vStr "Alice")])
      rfl (by decide) (Or.inl rfl) rfl rfl).1,
    (C9_insert_info_records (fun _ => .ok (.vObj [("name", .vStr "Alice")])) failJsEval failDb
      500 ⟨some "a.js", some "users", "insertOne", "N", none⟩ (.vObj [("name", .vStr "Alice")])
      rfl (by decide) (Or.inl rfl) rfl rfl).2.2.1,
    (C9_insert_info_records (fun _ => .ok (.vObj [("name", .vStr "Alice")])) failJsEval failDb
      500 ⟨some "a.js", some "users", "insertOne", "N", none⟩ (.vObj [("name", .vStr "Alice")])
      rfl (by decide) (Or.inl rfl) rfl rfl).2.2.2 defaultThresholds⟩

/-- C9 counterexample: an `insertOne` descriptor whose argument text fails
both parse attempts stores the error object, not the `{ info: ... }` marker,
refuting the claim as stated over every insert descriptor. -/
theorem C9_counterexample :
    (processQuery failParse failJsEval failDb 500
        ⟨some "a.js", some "users", "insertOne", "???", none⟩).explain
      = some (.errObj "Invalid query syntax") :=
  rfl

/-! ## Claim C8 — normalizer defaults and index search -/

/-- C8 (amended): for every raw explain payload, each of the four numeric
output fields equals the corresponding statistics field and defaults to 0
when that field (or the whole statistics section) is absent; and whenever no
node anywhere in the winning plan tree carries a truthy index-name attribute
(or the tree is absent), `indexUsed` is the sentinel `"None"`.  (The converse
fails: the search commits to the nested input-stage chain of a node and may
return `"None"` although a node elsewhere in the tree carries an index
name — see the counterexample.) -/
theorem C8_normalizer_defaults_and_index (e : Option ExplainPayload) :
    ((explainStats e).bind (fun st => st.executionTimeMillis) = none →
        (summarizeExplain e).totalMillis = 0) ∧
      (∀ v, (explainStats e).bind (fun st => st.executionTimeMillis) = some v →
        (summarizeExplain e).totalMillis = v) ∧
      ((explainStats e).bind (fun st => st.totalDocsExamined) = none →
        (summarizeExplain e).docsExamined = 0) ∧
      (∀ v, (explainStats e).bind (fun st => st.totalDocsExamined) = some v →
        (summarizeExplain e).docsExamined = v) ∧
      ((explainStats e).bind (fun st => st.totalDocsReturned) = none →
        (summarizeExplain e).docsReturned = 0) ∧
      (∀ v, (explainStats e).bind (fun st => st.totalDocsReturned) = some v →
        (summarizeExplain e).docsReturned = v) ∧
      ((explainStats e).bind (fun st => st.totalKeysExamined) = none →
        (summarizeExplain e).keysExamined = 0) ∧
      (∀ v, (explainStats e).bind (fun st => st.totalKeysExamined) = some v →
        (summarizeExplain e).keysExamined = v) ∧
      (∀ p, explainWinningPlan e = PlanOpt.some p → planHasIndex p = false →
        (summarizeExplain e).indexUsed = "None") ∧
      (explainWinningPlan e = PlanOpt.none → (summarizeExplain e).indexUsed = "None") := by
  refine ⟨fun h => by simp [summarizeExplain, statOr0, h],
    fun v h => by simp [summarizeExplain, statOr0, h],
    fun h => by simp [summarizeExplain, statOr0, h],
    fun v h => by simp [summarizeExplain, statOr0, h],
    fun h => by simp [summarizeExplain, statOr0, h],
    fun v h => by simp [summarizeExplain, statOr0, h],
    fun h => by simp [summarizeExplain, statOr0, h],
    fun v h => by simp [summarizeExplain, statOr0, h],
    fun p hp hno => ?_, fun hp => ?_⟩
  · have : findIndexName (explainWinningPlan e) = Option.none := by
      rw [hp]
      exact findIndexName_eq_none (PlanOpt.some p) (by simpa [planOptHasIndex] using hno)
    simp [summarizeExplain, jsOrStr, this]
  · have : findIndexName (explainWinningPlan e) = Option.none := by rw [hp]; rfl
    simp [summarizeExplain, jsOrStr, this]

/-- C8 witness: an `{ error: msg }` payload has no statistics section, so all
four numeric fields default to 0, and no winning plan, so `indexUsed` is
`"None"`. -/
theorem C8_witness :
    (summarizeExplain (some (.errObj "boom"))).totalMillis = 0 ∧
      (summarizeExplain (some (.errObj "boom"))).indexUsed = "None" :=
  ⟨(C8_normalizer_defaults_and_index (some (.errObj "boom"))).1 rfl,
    ((C8_normalizer_defaults_and_index (some (.errObj "boom"))).2.2.2.2.2.2.2.2.2) rfl⟩

/-- A plan node with neither an index name nor children. -/
def bareStage : PlanNode := .node none none .none .absent .absent

/-- A plan node carrying an index name, reachable only through the
`inputStages` list of `shadowedRoot`. -/
def indexedStage : PlanNode := .node (some "ref_idx") (some "IXSCAN") .none .absent .absent

/-- A root whose index-free `inputStage` chain shadows an indexed node in its
`inputStages` list. -/
def shadowedRoot : PlanNode :=
  .node none (some "SORT") (.some bareStage) .absent (.present (.cons indexedStage .nil))

/-- C8 counterexample: the tree `shadowedRoot` contains a node carrying the
index name `ref_idx`, yet the normalizer reports `indexUsed = "None"`,
because the search commits to the index-free `inputStage` chain and never
falls back to the `inputStages` list — refuting "indexName equals `None`
exactly when no node anywhere carries an index-name attribute". -/
theorem C8_counterexample :
    (summarizeExplain (some (.success ⟨none, some ⟨PlanOpt.some shadowedRoot⟩⟩))).indexUsed
        = "None" ∧
      planHasIndex shadowedRoot = true :=
  ⟨rfl, rfl⟩

/-! ## Claim C2 — empty-collection short-circuit -/

/-- C2 (amended): for every metrics record whose terminal stage is the
empty-collection marker `EOF`, the classifier returns score `Good`, an empty
issues list, exactly one warning (noting the empty collection), and the
single suggestion to add test data, regardless of every other field and of
the thresholds; no other rule contributes. -/
theorem C2_empty_collection_short_circuit (s : Summary) (TH : Thresholds)
    (h : s.stage = "EOF") :
    analyzePerformance s TH =
      ⟨"Good", [], [Warning.emptyCollection], [Suggestion.addTestData]⟩ := by
  simp [analyzePerformance, h]

/-- C2 witness: the short-circuit at a concrete metrics record with large
time and document counts. -/
theorem C2_witness :
    analyzePerformance ⟨500, "idx_w2", "EOF", 10000, 2, 0⟩ defaultThresholds =
      ⟨"Good", [], [Warning.emptyCollection], [Suggestion.addTestData]⟩ :=
  C2_empty_collection_short_circuit ⟨500, "idx_w2", "EOF", 10000, 2, 0⟩ defaultThresholds rfl

/-- C2 counterexample: the claim asserts an empty warnings list, but the
`EOF` branch pushes a warning before returning, so the warnings list is
non-empty (while the score is indeed `Good`). -/
theorem C2_counterexample :
    (analyzePerformance ⟨500, "idx_a", "EOF", 10000, 3, 7⟩ defaultThresholds).performanceScore
        = "Good" ∧
      (analyzePerformance ⟨500, "idx_a", "EOF", 10000, 3, 7⟩ defaultThresholds).warnings ≠ [] := by
  decide

/-! ## Claim C5 — verdict invariant -/

/-- C5 (amended): for every metrics record whose terminal stage is not the
empty-collection marker `EOF`, the verdict satisfies: score `Poor` iff the
issues list is non-empty; score `Fair` iff issues is empty and warnings is
non-empty; score `Good` iff both are empty.  (On `EOF` records the invariant
fails: the score is `Good` with one warning.) -/
theorem C5_verdict_invariant (s : Summary) (TH : Thresholds) (h : s.stage ≠ "EOF") :
    ((analyzePerformance s TH).performanceScore = "Poor" ↔
        (analyzePerformance s TH).issues ≠ []) ∧
      ((analyzePerformance s TH).performanceScore = "Fair" ↔
        ((analyzePerformance s TH).issues = [] ∧ (analyzePerformance s TH).warnings ≠ [])) ∧
      ((analyzePerformance s TH).performanceScore = "Good" ↔
        ((analyzePerformance s TH).issues = [] ∧ (analyzePerformance s TH).warnings = [])) := by
  unfold analyzePerformance
  rw [if_neg h]
  exact ⟨scoreOf_eq_poor_iff _ _, scoreOf_eq_fair_iff _ _, scoreOf_eq_good_iff _ _⟩

/-- C5 witness: the invariant applied at a concrete non-`EOF` record (no
index used, so one issue and score `Poor`). -/
theorem C5_witness :
    (analyzePerformance ⟨0, "None", "Unknown", 0, 0, 0⟩ defaultThresholds).performanceScore
        = "Poor" ↔
      (analyzePerformance ⟨0, "None", "Unknown", 0, 0, 0⟩ defaultThresholds).issues ≠ [] :=
  (C5_verdict_invariant ⟨0, "None", "Unknown", 0, 0, 0⟩ defaultThresholds (by decide)).1

/-- C5 counterexample: on an `EOF` record the issues list is empty and the
warnings list is non-empty, yet the score is `Good`, not `Fair`, refuting the
claimed "Fair iff issues empty and warnings non-empty". -/
theorem C5_counterexample :
    (analyzePerformance ⟨0, "None", "EOF", 5, 3, 0⟩ defaultThresholds).issues = [] ∧
      (analyzePerformance ⟨0, "None", "EOF", 5, 3, 0⟩ defaultThresholds).warnings ≠ [] ∧
      (analyzePerformance ⟨0, "None", "EOF", 5, 3, 0⟩ defaultThresholds).performanceScore
        ≠ "Fair" := by
  decide

/-! ## Claim C6 — threshold sensitivity -/

/-- C6 (amended): for every metrics record whose terminal stage is not `EOF`
and whose score under some configuration is not `Poor`, lowering
`maxExecutionTimeMs` to any value strictly below the execution time of the record
makes the score `Poor` (the slow-query rule fires).  (On `EOF` records the
score stays `Good` for every configuration.) -/
theorem C6_threshold_monotonicity (s : Summary) (TH : Thresholds) (t : Nat)
    (hs : s.stage ≠ "EOF")
    (_hnp : (analyzePerformance s TH).performanceScore ≠ "Poor")
    (ht : t < s.totalMillis) :
    (analyzePerformance s
        (Thresholds.mk t TH.warnExecutionTimeMs TH.maxDocsExamined
          TH.minQueryEfficiency)).performanceScore = "Poor" := by
  unfold analyzePerformance
  rw [if_neg hs]
  refine (scoreOf_eq_poor_iff _ _).mpr ?_
  simp [ht]

/-- C6 witness: a record with moderate time (score `Fair` under the default
thresholds) becomes `Poor` once `maxExecutionTimeMs` drops below its
execution time. -/
theorem C6_witness :
    (analyzePerformance ⟨80, "idx_w6", "IXSCAN", 0, 0, 0⟩
        (Thresholds.mk 10 50 500 ((1 : ℚ) / 10))).performanceScore = "Poor" :=
  C6_threshold_monotonicity ⟨80, "idx_w6", "IXSCAN", 0, 0, 0⟩ defaultThresholds 10
    (by decide) (by decide) (by decide)

/-- C6 counterexample: an `EOF` record with execution time 500 scores `Good`
under the default thresholds and still scores `Good` (not `Poor`) after
`maxExecutionTimeMs` is lowered to 10 < 500, refuting the claim as stated. -/
theorem C6_counterexample :
    (analyzePerformance ⟨500, "idx_c6", "EOF", 0, 0, 0⟩ defaultThresholds).performanceScore
        ≠ "Poor" ∧
      (10 : Nat) < 500 ∧
      (analyzePerformance ⟨500, "idx_c6", "EOF", 0, 0, 0⟩
          (Thresholds.mk 10 50 500 ((1 : ℚ) / 10))).performanceScore ≠ "Poor" := by
  refine ⟨by decide, by decide, by decide⟩

/-! ## Claim C7 — efficiency boundary -/

/-- C7 (amended): for every metrics record whose terminal stage is not `EOF`
and which examined and returned at least one document, the low-efficiency
warning is emitted iff `docsReturned / docsExamined` is strictly below
`minQueryEfficiency`; in particular equality does not trigger it.  (On `EOF`
records the rule never runs.) -/
theorem C7_efficiency_boundary (s : Summary) (TH : Thresholds)
    (hs : s.stage ≠ "EOF") (he : 0 < s.docsExamined) (hr : 0 < s.docsReturned) :
    Warning.lowEfficiency s.docsReturned s.docsExamined ∈ (analyzePerformance s TH).warnings ↔
      (s.docsReturned : ℚ) / (s.docsExamined : ℚ) < TH.minQueryEfficiency := by
  unfold analyzePerformance
  rw [if_neg hs]
  by_cases hq : (s.docsReturned : ℚ) / (s.docsExamined : ℚ) < TH.minQueryEfficiency
  · simp [hq, he, hr]
  · simp [hq, he, hr, Nat.pos_iff_ne_zero.mp hr]

/-- C7 witness: at the boundary `docsExamined = 100`, `docsReturned = 10`,
`minQueryEfficiency = 0.1`, the ratio equals the threshold and the warning is
not emitted. -/
theorem C7_witness :
    Warning.lowEfficiency 10 100 ∉
      (analyzePerformance ⟨0, "idx_w7", "IXSCAN", 100, 10, 0⟩ defaultThresholds).warnings :=
  fun hmem =>
    absurd
      ((C7_efficiency_boundary ⟨0, "idx_w7", "IXSCAN", 100, 10, 0⟩ defaultThresholds
          (by decide) (by decide) (by decide)).mp hmem)
      (by norm_num [defaultThresholds])

/-- C7 counterexample: an `EOF` record with `docsExamined = 100`,
`docsReturned = 1` and `minQueryEfficiency = 1/2` has ratio `1/100 < 1/2`,
yet no low-efficiency warning is emitted, refuting the claimed "if and only
if" over all metrics records. -/
theorem C7_counterexample :
    (1 : ℚ) / 100 < (1 : ℚ) / 2 ∧
      Warning.lowEfficiency 1 100 ∉
        (analyzePerformance ⟨0, "idx_c7", "EOF", 100, 1, 0⟩
          (Thresholds.mk 100 50 500 ((1 : ℚ) / 2))).warnings := by
  refine ⟨by norm_num, by decide⟩

/-! ## Claim C10 — issues imply suggestions -/

/-- C10: for every metrics record and configuration, if the returned
issues list is non-empty then its suggestions list is non-empty (each
issue-producing rule also pushes a suggestion). -/
theorem C10_issues_imply_suggestions (s : Summary) (TH : Thresholds)
    (h : (analyzePerformance s TH).issues ≠ []) :
    (analyzePerformance s TH).suggestions ≠ [] := by
  by_cases hs : s.stage = "EOF"
  · simp [analyzePerformance, hs]
  · unfold analyzePerformance at h ⊢
    rw [if_neg hs] at h ⊢
    by_cases c1 : s.totalMillis > TH.maxExecutionTimeMs
    · simp [c1]
    · by_cases c2 : s.indexUsed = "None" ∨ s.stage = "COLLSCAN"
      · simp [c2]
      · by_cases c3 : s.docsExamined > TH.maxDocsExamined
        · simp [c3]
        · exact absurd (by simp [c1, c2, c3]) h

/-- C10 witness: a record with no index used has the no-index issue and a
non-empty suggestions list. -/
theorem C10_witness :
    (analyzePerformance ⟨0, "None", "Unknown", 0, 0, 0⟩ defaultThresholds).suggestions ≠ [] :=
  C10_issues_imply_suggestions ⟨0, "None", "Unknown", 0, 0, 0⟩ defaultThresholds (by decide)

end MongoProfiler
